import Mathlib

/-!
Shallow embedding of the Alloyance autofill + predict pipeline
(`src/Backend/src/autofill.py`, `src/Backend/src/predict.py`).

Records are association lists from field name to an optional value
(`none` standing for pandas `NaN` / Python `None`); categorical codes
and numeric cell contents are modelled as rationals, matching the
floating-point cells of the single-row DataFrames the source builds.
Fallible steps return `Except String`, mirroring raised exceptions.
-/

namespace Alloyance

instance {ε α : Type} [DecidableEq ε] [DecidableEq α] : DecidableEq (Except ε α) :=
  fun x y =>
    match x, y with
    | Except.ok a, Except.ok b => decidable_of_iff (a = b) (by simp)
    | Except.error a, Except.error b => decidable_of_iff (a = b) (by simp)
    | Except.ok _, Except.error _ => isFalse (by simp)
    | Except.error _, Except.ok _ => isFalse (by simp)

/-- A cell value of the single-row DataFrame: either a string label or a number. -/
inductive Value where
  | str : String → Value
  | num : Rat → Value
deriving DecidableEq, Repr

/-- A record row: field name to optional cell (`none` = NaN/null/absent value). -/
abbrev Row := List (String × Option Value)

/-- An sklearn `LabelEncoder`: its `classes_` array (sorted unique labels). -/
structure LabelEncoder where
  classes : List String
deriving DecidableEq, Repr

/-- Embeds `pandas.Series.round()` / numpy rounding: round half to even, as applied to
the imputer's floating-point output before decoding. -/
def roundHalfEven (q : Rat) : Int :=
  let f : Int := ⌊q⌋
  let r : Rat := q - f
  if r < 1/2 then f
  else if 1/2 < r then f + 1
  else if f % 2 = 0 then f else f + 1

/-- The encode lambda of `autofill.py` step 3:
`le.transform([x])[0] if pd.notna(x) and x in le.classes_ else -1`.
`le.transform` of a present label is its index in `classes_`. -/
def encodeVal (le : LabelEncoder) (v : Option Value) : Int :=
  match v with
  | some (Value.str s) => if s ∈ le.classes then le.classes.indexOf s else -1
  | _ => -1

/-- The encode lambda of `predict.py` step 1 (no `pd.notna` guard):
`le.transform([x])[0] if x in le.classes_ else -1`; a NaN or numeric cell is
never a member of the string array `classes_`, hence maps to −1. -/
def encodeValPredict (le : LabelEncoder) (v : Option Value) : Int :=
  match v with
  | some (Value.str s) => if s ∈ le.classes then le.classes.indexOf s else -1
  | _ => -1

/-- numpy integer indexing `le.classes_[x]` for `x : Int`: a non-negative index
reads left-to-right, a negative index in `[-len, -1]` reads from the end, and
anything below `-len` raises `IndexError`. -/
def numpyGet (classes : List String) (x : Int) : Except String String :=
  if 0 ≤ x then Except.ok (classes.getD x.toNat "")
  else if -(classes.length : Int) ≤ x then
    Except.ok (classes.getD ((classes.length : Int) + x).toNat "")
  else Except.error "IndexError: index out of bounds"

/-- The decode lambda of `autofill.py` step 5, applied after
`.round().astype(int)`: `le.classes_[x] if x < len(le.classes_) else "Unknown"`. -/
def decodeInt (le : LabelEncoder) (x : Int) : Except String String :=
  if x < (le.classes.length : Int) then numpyGet le.classes x
  else Except.ok "Unknown"

/-- Embeds `autofill.py` step 5 on one cell: round the float code half-to-even, cast to
int, then apply the decode lambda. -/
def decodeCode (le : LabelEncoder) (q : Rat) : Except String String :=
  decodeInt le (roundHalfEven q)

/-- The column labels of a single-row DataFrame (`df.columns`). -/
def cols (r : List (String × α)) : List String :=
  r.map Prod.fst

/-- Embeds `df[col] = df[col].map g`: rewrite every cell of column `col` with `g`. -/
def updateCol (r : Row) (c : String) (g : Option Value → Option Value) : Row :=
  r.map (fun p => if p.1 = c then (p.1, g p.2) else p)

/-- The module-level state of `autofill.py`, loaded once at import:
the optional imputer artifact (an opaque trained model, modelled as a function
from the encoded single-row DataFrame to the row of floats
`imputer.transform` returns), the per-column label encoders, whether the
training CSV loaded to a non-empty DataFrame, its column list, and — for the
fallback when no encoders artifact exists — its object-dtype columns. -/
structure AutofillCtx where
  imputer : Option (Row → List Rat)
  label_encoders : List (String × LabelEncoder)
  df_training_nonempty : Bool
  df_training_cols : List String
  training_object_cols : List String

/-- Embeds `categorical_cols = list(label_encoders.keys()) if label_encoders else
df_training.select_dtypes(include=['object']).columns.tolist()`. -/
def categoricalCols (ctx : AutofillCtx) : List String :=
  if ctx.label_encoders = [] then ctx.training_object_cols
  else ctx.label_encoders.map Prod.fst

/-- Embeds `df_user.reindex(columns=df_training.columns, fill_value=np.nan)`:
exactly the given columns in the given order; a column present in `r` keeps
its (possibly null) value, a column absent from `r` is filled with NaN. -/
def reindexCols (columns : List String) (r : Row) : Row :=
  columns.map (fun c => (c, (r.lookup c).getD none))

/-- Step 2 of `autofill_missing_values`: align with the training schema,
skipped when the training DataFrame is empty. -/
def alignStep (ctx : AutofillCtx) (r : Row) : Row :=
  if ctx.df_training_nonempty then reindexCols ctx.df_training_cols r else r

/-- One iteration of the step-3 loop of `autofill_missing_values`: when the
column is in the DataFrame and has a stored encoder, replace every cell of
that column by its integer code (−1 for null or out-of-vocabulary). -/
def encodeStepF (ctx : AutofillCtx) (r : Row) (c : String) : Row :=
  if (cols r).contains c then
    match ctx.label_encoders.lookup c with
    | some le => updateCol r c (fun v => some (Value.num (encodeVal le v)))
    | none => r
  else r

/-- Step 3 of `autofill_missing_values`: the loop over `categorical_cols`. -/
def encodeStep (ctx : AutofillCtx) (r : Row) : Row :=
  (categoricalCols ctx).foldl (encodeStepF ctx) r

/-- The single-row DataFrame handed to `imputer.transform` by step 4. -/
def encodedForImputer (ctx : AutofillCtx) (input : Row) : Row :=
  encodeStep ctx (alignStep ctx input)

/-- Step 4 of `autofill_missing_values`: `imputer.transform(df_user)` rebuilt
as a DataFrame over the same columns; raises when no imputer was loaded. -/
def imputeStep (ctx : AutofillCtx) (r : Row) : Except String (List (String × Rat)) :=
  match ctx.imputer with
  | some f => Except.ok ((cols r).zip (f r))
  | none => Except.error "❌ No imputer found. Please train and save 'xgb_imputer.pkl'."

/-- Step 5 on one column: `df_imputed[col].round().astype(int)` then the decode
map. A cell that is not numeric cannot be rounded (pandas raises). -/
def decodeCell (le : LabelEncoder) (v : Value) : Except String Value :=
  match v with
  | Value.num q => (decodeCode le q).map Value.str
  | Value.str _ => Except.error "TypeError: cannot round a non-numeric column"

/-- Rewrite every cell of column `c` with the fallible `g`; `df_imputed[col]`
on a missing column raises `KeyError`. -/
def updateColM (r : List (String × Value)) (c : String)
    (g : Value → Except String Value) : Except String (List (String × Value)) :=
  if (cols r).contains c then
    r.mapM (fun p => if p.1 = c then (g p.2).map (fun v => (p.1, v)) else Except.ok p)
  else Except.error "KeyError"

/-- Step 5 of `autofill_missing_values`: decode every categorical column that
has a stored encoder back to labels. -/
def decodeStep (ctx : AutofillCtx) (r : List (String × Value)) :
    Except String (List (String × Value)) :=
  (categoricalCols ctx).foldlM
    (fun r c =>
      match ctx.label_encoders.lookup c with
      | some le => updateColM r c (decodeCell le)
      | none => Except.ok r)
    r

/-- The body of the `try` block of `autofill_missing_values`. -/
def autofillBody (ctx : AutofillCtx) (input : Row) :
    Except String (List (String × Value)) := do
  let df_user := alignStep ctx input
  let df_user := encodeStep ctx df_user
  let imputed ← imputeStep ctx df_user
  let df_imputed := imputed.map (fun p => (p.1, Value.num p.2))
  decodeStep ctx df_imputed

/-- Embeds `autofill_missing_values`: the try body with every raised exception
re-wrapped as `RuntimeError("Error during model-based autofill: ...")`. -/
def autofill_missing_values (ctx : AutofillCtx) (input : Row) :
    Except String (List (String × Value)) :=
  match autofillBody ctx input with
  | Except.ok r => Except.ok r
  | Except.error e => Except.error ("Error during model-based autofill: " ++ e)

/-- Embeds `MODEL_PATHS.keys()` in `predict.py`: the five registered KPI names. -/
def KPI_NAMES : List String :=
  ["Recycled Content (%)", "Resource Efficiency (%)",
   "Extended Product Life (years)", "Recovery Rate (%)", "Reuse Potential (%)"]

/-- The module-level state of `predict.py` plus the bit of filesystem state
`make_prediction` touches per call: `MODELS` (the KPI models found on disk at
import, each an opaque trained model from the feature DataFrame to a float,
raising on failure), whether `model/label_encoders.pkl` exists at call time,
and its contents when it does. -/
structure PredictCtx where
  MODELS : List (String × (Row → Except String Rat))
  encodersFileExists : Bool
  label_encoders : List (String × LabelEncoder)

/-- One iteration of the step-1 loop of `make_prediction`: when the encoder's
column is in the DataFrame, replace every cell of that column by its code. -/
def encodePredictStepF (r : Row) (p : String × LabelEncoder) : Row :=
  if (cols r).contains p.1 then
    updateCol r p.1 (fun v => some (Value.num (encodeValPredict p.2 v)))
  else r

/-- Step 1 of `make_prediction`: the loop over the loaded encoders. -/
def encodePredictStep (encs : List (String × LabelEncoder)) (r : Row) : Row :=
  encs.foldl encodePredictStepF r

/-- The encoded DataFrame after step 1 (encoding happens only when the
encoders artifact exists on disk). -/
def encodedInput (ctx : PredictCtx) (input : Row) : Row :=
  if ctx.encodersFileExists then encodePredictStep ctx.label_encoders input else input

/-- Embeds `X_input = df_input.drop(columns=all_kpis, errors="ignore")`. -/
def dropKpis (r : Row) : Row :=
  r.filter (fun p => !(KPI_NAMES.contains p.1))

/-- The per-KPI `try`/`except` of step 2: the predicted float on success,
`None` recorded when that model raised. -/
def predOut (model : Row → Except String Rat) (X : Row) : Option Value :=
  match model X with
  | Except.ok y => some (Value.num y)
  | Except.error _ => none

/-- Step 2 of `make_prediction`: one `predictions` entry per loaded model,
keyed by the KPI name, each computed on the KPI-free feature DataFrame. -/
def predictionsOf (ctx : PredictCtx) (input : Row) : Row :=
  let df := encodedInput ctx input
  ctx.MODELS.map (fun m => (m.1, predOut m.2 (dropKpis df)))

/-- Python `{**a, **b}`: the keys of `a` in order with `b`'s value where the
key collides, then the keys of `b` not in `a`, in `b`'s order. -/
def dictMerge (a b : Row) : Row :=
  a.map (fun p => (p.1, (b.lookup p.1).getD p.2))
    ++ b.filter (fun p => !(cols a).contains p.1)

/-- The body of the `try` block of `make_prediction`, paired with the list of
per-call filesystem operations it performs (the `os.path.exists` probe and the
`joblib.load` of the encoders artifact in step 1). -/
def makePredictionTraced (ctx : PredictCtx) (input : Row) :
    Except String Row × List String :=
  if ctx.MODELS.isEmpty then
    (Except.error "No prediction models found in 'model/' directory.", [])
  else
    (Except.ok (dictMerge input (predictionsOf ctx input)),
     if ctx.encodersFileExists then
       ["exists? model/label_encoders.pkl", "joblib.load model/label_encoders.pkl"]
     else
       ["exists? model/label_encoders.pkl"])

/-- Embeds `make_prediction`: the try body with every raised exception re-wrapped as
`RuntimeError("Error during prediction: ...")`. -/
def make_prediction (ctx : PredictCtx) (input : Row) : Except String Row :=
  match (makePredictionTraced ctx input).1 with
  | Except.ok r => Except.ok r
  | Except.error e => Except.error ("Error during prediction: " ++ e)

/-- The filesystem operations one call of `make_prediction` performs. -/
def makePredictionFileOps (ctx : PredictCtx) (input : Row) : List String :=
  (makePredictionTraced ctx input).2

/-- Two input records that agree key-for-key and differ at most in the values
of KPI-output fields (same key list, same order). -/
def kpiOnlyDiff (r1 r2 : Row) : Prop :=
  List.Forall₂ (fun p q => p.1 = q.1 ∧ (p.1 ∉ KPI_NAMES → p.2 = q.2)) r1 r2

/-! Concrete fixtures used by witnesses and counterexamples, mirroring the
`Transport Mode` vocabulary of the sample data. -/

/-- A vocabulary like the `Transport Mode` column's. -/
def sampleEncoder : LabelEncoder := ⟨["Rail", "Ship", "Truck"]⟩

/-- A toy imputer artifact: fills every cell of the row with 1.0. -/
def sampleAutofillCtx : AutofillCtx :=
  { imputer := some (fun r => List.replicate r.length 1)
  , label_encoders := [("Transport Mode", sampleEncoder)]
  , df_training_nonempty := true
  , df_training_cols := ["Transport Mode", "Transport Distance (km)"]
  , training_object_cols := [] }

/-- The same module state with no imputer artifact on disk. -/
def noImputerCtx : AutofillCtx :=
  { sampleAutofillCtx with imputer := none }

/-- A small raw input: one categorical value, one extra field not in schema. -/
def sampleInput : Row :=
  [("Transport Mode", some (Value.str "Ship")), ("Extra", some (Value.num 5))]

/-- A KPI model artifact that always predicts `q`. -/
def okModel (q : Rat) : Row → Except String Rat := fun _ => Except.ok q

/-- A KPI model artifact that raises during inference. -/
def failingModel : Row → Except String Rat := fun _ => Except.error "inference failed"

/-- The `predict.py` state with one healthy model, one raising model, and the
encoders artifact present on disk. -/
def samplePredictCtx : PredictCtx :=
  { MODELS := [("Recycled Content (%)", okModel 10),
               ("Resource Efficiency (%)", failingModel)]
  , encodersFileExists := true
  , label_encoders := [("Transport Mode", sampleEncoder)] }

/-- The `predict.py` state where exactly the `Recovery Rate (%)` artifact is
absent and the remaining four load and succeed. -/
def absentModelCtx : PredictCtx :=
  { MODELS := [("Recycled Content (%)", okModel 10),
               ("Resource Efficiency (%)", okModel 20),
               ("Extended Product Life (years)", okModel 30),
               ("Reuse Potential (%)", okModel 40)]
  , encodersFileExists := false
  , label_encoders := [] }

/-- An autofilled record that already carries an (imputed) value for the
`Recovery Rate (%)` KPI, as `autofill_missing_values` produces when the KPI
columns are part of the training schema. -/
def kpiCarryingInput : Row :=
  [("Recovery Rate (%)", some (Value.num 87)),
   ("Transport Distance (km)", some (Value.num 2))]

/-- The `predict.py` state with no model artifact found at all. -/
def emptyModelsCtx : PredictCtx :=
  { MODELS := [], encodersFileExists := true, label_encoders := [] }

/-- Two records differing only in the value of the KPI field
`Recovery Rate (%)` (a caller-supplied guess of 1 vs 99). -/
def kpiGuessInput1 : Row :=
  [("Recovery Rate (%)", some (Value.num 1)),
   ("Transport Mode", some (Value.str "Ship"))]

/-- Same record as `kpiGuessInput1` with a different KPI guess. -/
def kpiGuessInput2 : Row :=
  [("Recovery Rate (%)", some (Value.num 99)),
   ("Transport Mode", some (Value.str "Ship"))]

/-! ### Supporting lemmas -/

theorem cols_updateCol (r : Row) (c : String) (g : Option Value → Option Value) :
    cols (updateCol r c g) = cols r := by
  simp only [cols, updateCol, List.map_map]
  apply List.map_congr_left
  intro p _
  by_cases h : p.1 = c <;> simp [h]

theorem roundHalfEven_intCast (n : Int) : roundHalfEven (n : Rat) = n := by
  unfold roundHalfEven
  norm_num

theorem getD_indexOf (l : List String) (s d : String) (h : s ∈ l) :
    l.getD (l.indexOf s) d = s := by
  have hlt : l.indexOf s < l.length := List.indexOf_lt_length.mpr h
  rw [List.getD_eq_getElem l d hlt]
  exact List.getElem_indexOf hlt

/-! ### Claim theorems -/

/-- C1: the decode lambda of `autofill.py` has no lower bound on the rounded
code, so a negative code is served by numpy negative indexing instead of the
`"Unknown"` sentinel: on the 3-label vocabulary `["Rail","Ship","Truck"]` the
sentinel code −1 decodes to the vocabulary label `"Truck"`, and −4 raises
`IndexError`; only `"Unknown"` for codes ≥ 3. This refutes the claim that
every out-of-range rounded code, negatives included, decodes to `"Unknown"`. -/
theorem decode_out_of_range_code_bug :
    decodeCode sampleEncoder (-1) = Except.ok "Truck" ∧
    "Truck" ∈ sampleEncoder.classes ∧
    decodeCode sampleEncoder (-4) = Except.error "IndexError: index out of bounds" ∧
    decodeCode sampleEncoder 3 = Except.ok "Unknown" := by
  have hcast : ∀ n : Int, decodeCode sampleEncoder ((n : Rat)) = decodeInt sampleEncoder n := by
    intro n
    rw [decodeCode, roundHalfEven_intCast]
  refine ⟨?_, by decide, ?_, ?_⟩
  · rw [show ((-1 : Rat)) = ((-1 : Int) : Rat) by norm_num, hcast]
    decide
  · rw [show ((-4 : Rat)) = ((-4 : Int) : Rat) by norm_num, hcast]
    decide
  · rw [show ((3 : Rat)) = ((3 : Int) : Rat) by norm_num, hcast]
    decide

/-- C6: for every label in an encoder's vocabulary, decoding the code obtained
by encoding the label (as the floating-point cell the imputer hands back)
returns the original label. -/
theorem codec_round_trip (le : LabelEncoder) (s : String) (hs : s ∈ le.classes) :
    decodeCode le ((encodeVal le (some (Value.str s)) : Int) : Rat) = Except.ok s := by
  have he : encodeVal le (some (Value.str s)) = (le.classes.indexOf s : Int) := by
    simp [encodeVal, hs]
  have hlt : le.classes.indexOf s < le.classes.length := List.indexOf_lt_length.mpr hs
  rw [he, decodeCode, roundHalfEven_intCast, decodeInt]
  rw [if_pos (by exact_mod_cast hlt)]
  rw [numpyGet, if_pos (Int.ofNat_nonneg _)]
  rw [Int.toNat_natCast, getD_indexOf le.classes s "" hs]

/-- C6 witness: the round trip at the concrete label `"Ship"`. -/
theorem codec_round_trip_witness :
    "Ship" ∈ sampleEncoder.classes ∧
    decodeCode sampleEncoder
      ((encodeVal sampleEncoder (some (Value.str "Ship")) : Int) : Rat) =
        Except.ok "Ship" :=
  ⟨by decide, codec_round_trip sampleEncoder "Ship" (by decide)⟩

/-- C7: the encode lambda of `autofill.py` is total and returns the sentinel
−1 on a vocabulary miss, on a null cell, and on a non-string cell. -/
theorem encode_never_fails (le : LabelEncoder) (s : String) (q : Rat)
    (hs : s ∉ le.classes) :
    encodeVal le (some (Value.str s)) = -1 ∧
    encodeVal le none = -1 ∧
    encodeVal le (some (Value.num q)) = -1 := by
  refine ⟨?_, rfl, rfl⟩
  simp [encodeVal, hs]

/-- C7 witness: the unseen label `"Plane"` and a null cell both encode to −1. -/
theorem encode_never_fails_witness :
    "Plane" ∉ sampleEncoder.classes ∧
    encodeVal sampleEncoder (some (Value.str "Plane")) = -1 ∧
    encodeVal sampleEncoder none = -1 ∧
    encodeVal sampleEncoder (some (Value.num 7)) = -1 := by
  refine ⟨by decide, ?_⟩
  exact (encode_never_fails sampleEncoder "Plane" 7 (by decide))

/-- C3: when no imputer artifact was loaded at startup, every call to
`autofill_missing_values` — whatever the input record — raises the wrapped
"No imputer found" `RuntimeError` and returns no partial result. -/
theorem imputer_absent_always_fails (ctx : AutofillCtx) (input : Row)
    (h : ctx.imputer = none) :
    autofill_missing_values ctx input =
      Except.error ("Error during model-based autofill: " ++
        "❌ No imputer found. Please train and save 'xgb_imputer.pkl'.") := by
  simp [autofill_missing_values, autofillBody, imputeStep, h, Bind.bind, Except.bind]

/-- C3 witness: the failure at the concrete sample input. -/
theorem imputer_absent_always_fails_witness :
    noImputerCtx.imputer = none ∧
    autofill_missing_values noImputerCtx sampleInput =
      Except.error ("Error during model-based autofill: " ++
        "❌ No imputer found. Please train and save 'xgb_imputer.pkl'.") :=
  ⟨rfl, imputer_absent_always_fails noImputerCtx sampleInput rfl⟩

/-- C10: when no KPI model artifact at all was found at startup,
`make_prediction` raises the wrapped "No prediction models found"
`RuntimeError` for every input instead of returning the record. -/
theorem empty_models_raises (ctx : PredictCtx) (input : Row)
    (h : ctx.MODELS = []) :
    make_prediction ctx input =
      Except.error
        "Error during prediction: No prediction models found in 'model/' directory." := by
  simp [make_prediction, makePredictionTraced, h]

/-- C5 counterexample: with models loaded and the encoders artifact on disk,
one call of `make_prediction` performs two filesystem operations — the
`os.path.exists` probe and the `joblib.load` of `model/label_encoders.pkl` —
refuting the claim that no file is read during a pipeline call. -/
theorem per_call_file_read_cex :
    makePredictionFileOps samplePredictCtx kpiCarryingInput =
      ["exists? model/label_encoders.pkl", "joblib.load model/label_encoders.pkl"] ∧
    makePredictionFileOps samplePredictCtx kpiCarryingInput ≠ [] := by
  constructor
  · rfl
  · intro h
    simp [makePredictionFileOps, makePredictionTraced, samplePredictCtx] at h

/-- C5 amended: the imputer and KPI model artifacts are startup state, but
every `make_prediction` call that passes the model check re-probes the
filesystem for the label-encoders artifact and re-loads it when present;
these are the only per-call file operations. -/
theorem per_call_file_reads_only_encoders (ctx : PredictCtx) (input : Row)
    (h : ctx.MODELS.isEmpty = false) :
    makePredictionFileOps ctx input =
      (if ctx.encodersFileExists then
        ["exists? model/label_encoders.pkl", "joblib.load model/label_encoders.pkl"]
      else ["exists? model/label_encoders.pkl"]) := by
  simp [makePredictionFileOps, makePredictionTraced, h]

/-- C5 witness: the per-call file operations of a concrete call. -/
theorem per_call_file_reads_only_encoders_witness :
    samplePredictCtx.MODELS.isEmpty = false ∧
    makePredictionFileOps samplePredictCtx kpiCarryingInput =
      (if samplePredictCtx.encodersFileExists then
        ["exists? model/label_encoders.pkl", "joblib.load model/label_encoders.pkl"]
      else ["exists? model/label_encoders.pkl"]) :=
  ⟨rfl, per_call_file_reads_only_encoders samplePredictCtx kpiCarryingInput rfl⟩

/-- C10 witness: the failure at a concrete input. -/
theorem empty_models_raises_witness :
    emptyModelsCtx.MODELS = [] ∧
    make_prediction emptyModelsCtx kpiCarryingInput =
      Except.error
        "Error during prediction: No prediction models found in 'model/' directory." :=
  ⟨rfl, empty_models_raises emptyModelsCtx kpiCarryingInput rfl⟩

theorem cols_reindexCols (columns : List String) (r : Row) :
    cols (reindexCols columns r) = columns := by
  simp only [cols, reindexCols, List.map_map]
  have : (Prod.fst ∘ fun c : String => (c, (r.lookup c).getD none)) = id := by
    funext c
    rfl
  rw [this, List.map_id]

theorem reindexCols_idem (columns : List String) (r : Row) :
    reindexCols columns (reindexCols columns r) = reindexCols columns r := by
  unfold reindexCols
  apply List.map_congr_left
  intro c hc
  rw [List.lookup_graph (fun x => (r.lookup x).getD none) hc, Option.getD_some]

/-- C8: with a non-empty training schema, alignment produces exactly the
schema's columns in schema order; a schema column keeps the input's value
when present (so an absent one is filled with null), input fields outside
the schema are dropped, and alignment is idempotent. -/
theorem alignment_correct (ctx : AutofillCtx) (r : Row)
    (h : ctx.df_training_nonempty = true) :
    cols (alignStep ctx r) = ctx.df_training_cols ∧
    (∀ c ∈ ctx.df_training_cols,
       (alignStep ctx r).lookup c = some ((r.lookup c).getD none)) ∧
    alignStep ctx (alignStep ctx r) = alignStep ctx r := by
  simp only [alignStep, h, if_true]
  refine ⟨cols_reindexCols _ _, ?_, reindexCols_idem _ _⟩
  intro c hc
  exact List.lookup_graph (fun x => (r.lookup x).getD none) hc

/-- C8 witness: alignment of the concrete sample input (which has one extra
field and lacks one schema field). -/
theorem alignment_correct_witness :
    sampleAutofillCtx.df_training_nonempty = true ∧
    (cols (alignStep sampleAutofillCtx sampleInput) = sampleAutofillCtx.df_training_cols ∧
     (∀ c ∈ sampleAutofillCtx.df_training_cols,
        (alignStep sampleAutofillCtx sampleInput).lookup c =
          some ((sampleInput.lookup c).getD none)) ∧
     alignStep sampleAutofillCtx (alignStep sampleAutofillCtx sampleInput) =
       alignStep sampleAutofillCtx sampleInput) :=
  ⟨rfl, alignment_correct sampleAutofillCtx sampleInput rfl⟩

theorem cols_encodeStepF (ctx : AutofillCtx) (r : Row) (c : String) :
    cols (encodeStepF ctx r c) = cols r := by
  unfold encodeStepF
  cases hc : (cols r).contains c with
  | false => simp
  | true =>
    simp only [if_true]
    cases ctx.label_encoders.lookup c with
    | none => rfl
    | some le => exact cols_updateCol r c _

theorem cols_encodeFold (ctx : AutofillCtx) (L : List String) (r : Row) :
    cols (L.foldl (encodeStepF ctx) r) = cols r := by
  induction L generalizing r with
  | nil => rfl
  | cons a t ih => rw [List.foldl_cons, ih, cols_encodeStepF]

theorem mem_updateCol_self_isSome (r : Row) (c : String) (g : Option Value → Value)
    (p : String × Option Value) (hp : p ∈ updateCol r c (fun v => some (g v)))
    (hpc : p.1 = c) : p.2.isSome := by
  obtain ⟨q, _, heq⟩ := List.mem_map.mp hp
  by_cases hq : q.1 = c
  · rw [← heq, if_pos hq]
    rfl
  · rw [← heq, if_neg hq] at hpc
    exact absurd hpc hq

theorem mem_updateCol_other_isSome (r : Row) (c c' : String)
    (g : Option Value → Value)
    (h : ∀ p ∈ r, p.1 = c → p.2.isSome)
    (p : String × Option Value) (hp : p ∈ updateCol r c' (fun v => some (g v)))
    (hpc : p.1 = c) : p.2.isSome := by
  obtain ⟨q, hq, heq⟩ := List.mem_map.mp hp
  by_cases hqc : q.1 = c'
  · rw [← heq, if_pos hqc]
    rfl
  · rw [← heq, if_neg hqc] at hpc ⊢
    exact h q hq hpc

theorem encodeStepF_preserves_isSome (ctx : AutofillCtx) (r : Row) (a c : String)
    (h : ∀ p ∈ r, p.1 = c → p.2.isSome) :
    ∀ p ∈ encodeStepF ctx r a, p.1 = c → p.2.isSome := by
  unfold encodeStepF
  by_cases hc : (cols r).contains a = true
  · rw [if_pos hc]
    cases ctx.label_encoders.lookup a with
    | none => exact h
    | some le => exact mem_updateCol_other_isSome r c a _ h
  · rw [if_neg hc]
    exact h

theorem encodeFold_preserves_isSome (ctx : AutofillCtx) (L : List String)
    (r : Row) (c : String) (h : ∀ p ∈ r, p.1 = c → p.2.isSome) :
    ∀ p ∈ L.foldl (encodeStepF ctx) r, p.1 = c → p.2.isSome := by
  induction L generalizing r with
  | nil => exact h
  | cons a t ih =>
    rw [List.foldl_cons]
    exact ih (encodeStepF ctx r a) (encodeStepF_preserves_isSome ctx r a c h)

theorem encodeStepF_self_isSome (ctx : AutofillCtx) (r : Row) (c : String)
    (le : LabelEncoder) (hle : ctx.label_encoders.lookup c = some le)
    (hcol : (cols r).contains c = true) :
    ∀ p ∈ encodeStepF ctx r c, p.1 = c → p.2.isSome := by
  have heq : encodeStepF ctx r c
      = updateCol r c (fun v => some (Value.num (encodeVal le v))) := by
    unfold encodeStepF
    rw [if_pos hcol, hle]
  rw [heq]
  exact mem_updateCol_self_isSome r c _

theorem encodeFold_isSome (ctx : AutofillCtx) (L : List String) (r : Row)
    (c : String) (le : LabelEncoder) (hc : c ∈ L)
    (hle : ctx.label_encoders.lookup c = some le)
    (hcol : (cols r).contains c = true) :
    ∀ p ∈ L.foldl (encodeStepF ctx) r, p.1 = c → p.2.isSome := by
  induction L generalizing r with
  | nil => cases hc
  | cons a t ih =>
    rw [List.foldl_cons]
    by_cases hca : c = a
    · subst hca
      exact encodeFold_preserves_isSome ctx t (encodeStepF ctx r c) c
        (encodeStepF_self_isSome ctx r c le hle hcol)
    · have hct : c ∈ t := by
        cases hc with
        | head => exact absurd rfl hca
        | tail _ h => exact h
      exact ih _ hct (by rw [cols_encodeStepF]; exact hcol)

/-- C9: in the record `autofill_missing_values` hands to `imputer.transform`,
every cell of a categorical column that has a stored encoder carries a value
(its integer code, −1 when the raw input was null or out-of-vocabulary), so
the imputer never sees a categorical field marked as missing. -/
theorem categoricals_encoded_before_impute (ctx : AutofillCtx) (input : Row)
    (p : String × Option Value) (hp : p ∈ encodedForImputer ctx input)
    (hc : p.1 ∈ categoricalCols ctx)
    (hle : (ctx.label_encoders.lookup p.1).isSome) :
    p.2.isSome := by
  obtain ⟨le, hle'⟩ := Option.isSome_iff_exists.mp hle
  have hcontains : (cols (alignStep ctx input)).contains p.1 = true := by
    have hmem : p.1 ∈ cols (encodedForImputer ctx input) :=
      List.mem_map.mpr ⟨p, hp, rfl⟩
    rw [encodedForImputer, encodeStep, cols_encodeFold] at hmem
    exact List.elem_iff.mpr hmem
  exact encodeFold_isSome ctx (categoricalCols ctx) (alignStep ctx input)
    p.1 le hc hle' hcontains p hp rfl

/-- C9 witness: the encoded record at the concrete sample input (whose
categorical cell is non-null afterwards). -/
theorem categoricals_encoded_before_impute_witness :
    ("Transport Mode", some (Value.num 1)) ∈
        encodedForImputer sampleAutofillCtx sampleInput ∧
    "Transport Mode" ∈ categoricalCols sampleAutofillCtx ∧
    ((sampleAutofillCtx.label_encoders.lookup "Transport Mode").isSome = true) ∧
    (some (Value.num 1) : Option Value).isSome = true := by
  refine ⟨?_, by decide, rfl, ?_⟩
  · show ("Transport Mode", some (Value.num 1)) ∈
      encodedForImputer sampleAutofillCtx sampleInput
    decide
  · exact categoricals_encoded_before_impute sampleAutofillCtx sampleInput
      ("Transport Mode", some (Value.num 1)) (by decide) (by decide) rfl

theorem kpiOnlyDiff_cols {r1 r2 : Row} (h : kpiOnlyDiff r1 r2) :
    cols r1 = cols r2 := by
  induction h with
  | nil => rfl
  | cons hpq _ ih =>
    simp only [cols, List.map_cons] at ih ⊢
    rw [hpq.1, ih]

theorem kpiOnlyDiff_updateCol {r1 r2 : Row} (h : kpiOnlyDiff r1 r2)
    (c : String) (g : Option Value → Option Value) :
    kpiOnlyDiff (updateCol r1 c g) (updateCol r2 c g) := by
  induction h with
  | nil => exact List.Forall₂.nil
  | @cons a b t1 t2 hpq _ ih =>
    refine List.Forall₂.cons ?_ ih
    obtain ⟨hk, hv⟩ := hpq
    dsimp only
    by_cases hc : a.1 = c
    · rw [if_pos hc, if_pos (hk ▸ hc)]
      exact ⟨hk, fun hn => by rw [hv hn]⟩
    · rw [if_neg hc, if_neg (hk ▸ hc)]
      exact ⟨hk, hv⟩

theorem kpiOnlyDiff_encodePredictStepF {r1 r2 : Row} (h : kpiOnlyDiff r1 r2)
    (e : String × LabelEncoder) :
    kpiOnlyDiff (encodePredictStepF r1 e) (encodePredictStepF r2 e) := by
  unfold encodePredictStepF
  rw [kpiOnlyDiff_cols h]
  by_cases hc : (cols r2).contains e.1 = true
  · rw [if_pos hc, if_pos hc]
    exact kpiOnlyDiff_updateCol h e.1 _
  · rw [if_neg hc, if_neg hc]
    exact h

theorem kpiOnlyDiff_encodePredictStep {r1 r2 : Row}
    (encs : List (String × LabelEncoder)) (h : kpiOnlyDiff r1 r2) :
    kpiOnlyDiff (encodePredictStep encs r1) (encodePredictStep encs r2) := by
  unfold encodePredictStep
  induction encs generalizing r1 r2 with
  | nil => exact h
  | cons e t ih => exact ih (kpiOnlyDiff_encodePredictStepF h e)

theorem kpiOnlyDiff_dropKpis {r1 r2 : Row} (h : kpiOnlyDiff r1 r2) :
    dropKpis r1 = dropKpis r2 := by
  induction h with
  | nil => rfl
  | @cons a b t1 t2 hpq _ ih =>
    obtain ⟨hk, hv⟩ := hpq
    simp only [dropKpis, List.filter_cons] at ih ⊢
    by_cases hkpi : a.1 ∈ KPI_NAMES
    · have ha : KPI_NAMES.contains a.1 = true := List.elem_iff.mpr hkpi
      rw [ha, ← hk, ha]
      simpa using ih
    · have ha : KPI_NAMES.contains a.1 = false := by
        cases hcon : KPI_NAMES.contains a.1 with
        | false => rfl
        | true => exact absurd (List.elem_iff.mp hcon) hkpi
      rw [ha, ← hk, ha]
      simp only [Bool.not_false, if_true]
      rw [ih, Prod.ext hk (hv hkpi)]

theorem encodedInput_dropKpis_eq {ctx : PredictCtx} {r1 r2 : Row}
    (h : kpiOnlyDiff r1 r2) :
    dropKpis (encodedInput ctx r1) = dropKpis (encodedInput ctx r2) := by
  unfold encodedInput
  by_cases he : ctx.encodersFileExists = true
  · rw [if_pos he, if_pos he]
    exact kpiOnlyDiff_dropKpis (kpiOnlyDiff_encodePredictStep ctx.label_encoders h)
  · rw [if_neg he, if_neg he]
    exact kpiOnlyDiff_dropKpis h

theorem predictionsOf_eq (ctx : PredictCtx) (input : Row) :
    predictionsOf ctx input =
      ctx.MODELS.map (fun m =>
        (m.1, predOut m.2 (dropKpis (encodedInput ctx input)))) := rfl

/-- C2: two input records with the same fields in the same order that differ
only in the values of KPI-output fields yield identical outputs from every
KPI predictor — the KPI columns are dropped from every predictor's feature
DataFrame, so no KPI value (the predictor's own target included) can
influence any prediction. -/
theorem kpi_feature_exclusion (ctx : PredictCtx) (r1 r2 : Row)
    (h : kpiOnlyDiff r1 r2) :
    predictionsOf ctx r1 = predictionsOf ctx r2 := by
  rw [predictionsOf_eq, predictionsOf_eq, encodedInput_dropKpis_eq h]

/-- C2 witness: differing caller-supplied guesses of `Recovery Rate (%)`
produce the same predictions. -/
theorem kpi_feature_exclusion_witness :
    kpiOnlyDiff kpiGuessInput1 kpiGuessInput2 ∧
    predictionsOf samplePredictCtx kpiGuessInput1 =
      predictionsOf samplePredictCtx kpiGuessInput2 := by
  have h : kpiOnlyDiff kpiGuessInput1 kpiGuessInput2 := by
    refine List.Forall₂.cons ⟨rfl, ?_⟩ (List.Forall₂.cons ⟨rfl, ?_⟩ List.Forall₂.nil)
    · intro hnot
      exact absurd (by decide) hnot
    · intro _
      rfl
  exact ⟨h, kpi_feature_exclusion samplePredictCtx kpiGuessInput1 kpiGuessInput2 h⟩

theorem lookup_append_row (l1 l2 : Row) (c : String) :
    (l1 ++ l2).lookup c =
      match l1.lookup c with
      | some v => some v
      | none => l2.lookup c := by
  induction l1 with
  | nil => rfl
  | cons q t ih =>
    rw [List.cons_append, List.lookup_cons, List.lookup_cons]
    cases c == q.1 with
    | true => rfl
    | false => exact ih

theorem lookup_eq_none_of_not_mem (b : Row) (c : String) (hc : c ∉ cols b) :
    b.lookup c = none := by
  induction b with
  | nil => rfl
  | cons q t ih =>
    rw [List.lookup_cons]
    have hne : (c == q.1) = false :=
      beq_false_of_ne (fun he => hc (by rw [he]; exact List.mem_cons_self _ _))
    rw [hne]
    exact ih (fun h => hc (List.mem_cons_of_mem _ h))

theorem lookup_mergeLeft_none (a b : Row) (c : String) (hc : c ∉ cols a) :
    (a.map (fun p => (p.1, (b.lookup p.1).getD p.2))).lookup c = none := by
  induction a with
  | nil => rfl
  | cons q t ih =>
    rw [List.map_cons, List.lookup_cons]
    have hne : (c == q.1) = false :=
      beq_false_of_ne (fun he => hc (by rw [he]; exact List.mem_cons_self _ _))
    rw [hne]
    exact ih (fun h => hc (List.mem_cons_of_mem _ h))

theorem lookup_mergeLeft_some (a b : Row) (c : String) (v : Option Value)
    (hc : c ∈ cols a) (hb : b.lookup c = some v) :
    (a.map (fun p => (p.1, (b.lookup p.1).getD p.2))).lookup c = some v := by
  induction a with
  | nil => cases hc
  | cons q t ih =>
    rw [List.map_cons, List.lookup_cons]
    by_cases he : c = q.1
    · rw [beq_iff_eq.mpr he]
      rw [← he, hb]
      rfl
    · rw [beq_false_of_ne he]
      rcases List.mem_cons.mp hc with h | h
      · exact absurd h he
      · exact ih h

theorem lookup_mergeRight (a b : Row) (c : String)
    (hc : (cols a).contains c = false) :
    (b.filter (fun p => !(cols a).contains p.1)).lookup c = b.lookup c := by
  induction b with
  | nil => rfl
  | cons q t ih =>
    rw [List.filter_cons]
    by_cases hq : (!(cols a).contains q.1) = true
    · rw [if_pos hq, List.lookup_cons, List.lookup_cons]
      cases c == q.1 with
      | true => rfl
      | false => exact ih
    · rw [if_neg hq, List.lookup_cons]
      have hne : (c == q.1) = false := by
        apply beq_false_of_ne
        intro he
        rw [← he, hc] at hq
        exact hq rfl
      rw [hne]
      exact ih

theorem dictMerge_lookup_right (a b : Row) (c : String) (v : Option Value)
    (hb : b.lookup c = some v) :
    (dictMerge a b).lookup c = some v := by
  unfold dictMerge
  rw [lookup_append_row]
  by_cases hc : c ∈ cols a
  · rw [lookup_mergeLeft_some a b c v hc hb]
  · rw [lookup_mergeLeft_none a b c hc]
    have hcf : (cols a).contains c = false := by
      cases hcon : (cols a).contains c with
      | false => rfl
      | true => exact absurd (List.elem_iff.mp hcon) hc
    show (b.filter (fun p => !(cols a).contains p.1)).lookup c = some v
    rw [lookup_mergeRight a b c hcf]
    exact hb

theorem dictMerge_lookup_none (a b : Row) (c : String)
    (ha : c ∉ cols a) (hb : c ∉ cols b) :
    (dictMerge a b).lookup c = none := by
  unfold dictMerge
  rw [lookup_append_row, lookup_mergeLeft_none a b c ha]
  have hcf : (cols a).contains c = false := by
    cases hcon : (cols a).contains c with
    | false => rfl
    | true => exact absurd (List.elem_iff.mp hcon) ha
  show (b.filter (fun p => !(cols a).contains p.1)).lookup c = none
  rw [lookup_mergeRight a b c hcf]
  exact lookup_eq_none_of_not_mem b c hb

theorem lookup_keyed_map {α : Type} (L : List (String × α))
    (g : String × α → Option Value) (m : String × α) (hm : m ∈ L)
    (hnodup : (L.map Prod.fst).Nodup) :
    (L.map (fun x => (x.1, g x))).lookup m.1 = some (g m) := by
  induction L with
  | nil => cases hm
  | cons q t ih =>
    rw [List.map_cons, List.lookup_cons]
    rcases List.mem_cons.mp hm with he | ht
    · subst he
      rw [beq_self_eq_true]
    · have hne : (m.1 == q.1) = false := by
        apply beq_false_of_ne
        intro he
        have hmem : m.1 ∈ t.map Prod.fst := List.mem_map.mpr ⟨m, ht, rfl⟩
        exact (List.nodup_cons.mp hnodup).1 (he ▸ hmem)
      rw [hne]
      exact ih ht (List.nodup_cons.mp hnodup).2

theorem cols_predictionsOf (ctx : PredictCtx) (input : Row) :
    cols (predictionsOf ctx input) = ctx.MODELS.map Prod.fst := by
  simp only [predictionsOf, cols, List.map_map]
  apply List.map_congr_left
  intro m _
  rfl

/-- C4 counterexample: with exactly the `Recovery Rate (%)` artifact absent,
the other four models loaded and succeeding, and an autofilled input that
already carries a (previously imputed) value 87 for that KPI,
`make_prediction` returns that stale value for the failing KPI — an entry
that is neither missing nor null — refuting the claim as stated. -/
theorem stale_kpi_passthrough_cex :
    "Recovery Rate (%)" ∉ absentModelCtx.MODELS.map Prod.fst ∧
    make_prediction absentModelCtx kpiCarryingInput =
      Except.ok (dictMerge kpiCarryingInput (predictionsOf absentModelCtx kpiCarryingInput)) ∧
    (dictMerge kpiCarryingInput (predictionsOf absentModelCtx kpiCarryingInput)).lookup
        "Recovery Rate (%)" = some (some (Value.num 87)) := by
  exact ⟨by decide, rfl, by decide⟩

/-- C4 amended: with at least one model loaded (keys distinct, as a Python
dict guarantees), `make_prediction` never lets an exception escape: it
returns the merged record in which every model that predicted successfully
contributes its value, a model that raised contributes a null entry for its
KPI, and a KPI with no loaded artifact gets no entry at all when the input
lacks that field — but when the input already contains a value for an
artifact-less KPI, that input value is passed through unchanged. -/
theorem single_model_failure_isolation (ctx : PredictCtx) (input : Row)
    (hne : ctx.MODELS.isEmpty = false)
    (hnodup : (ctx.MODELS.map Prod.fst).Nodup) :
    make_prediction ctx input =
      Except.ok (dictMerge input (predictionsOf ctx input)) ∧
    (∀ m ∈ ctx.MODELS, ∀ y : Rat,
        m.2 (dropKpis (encodedInput ctx input)) = Except.ok y →
        (dictMerge input (predictionsOf ctx input)).lookup m.1 =
          some (some (Value.num y))) ∧
    (∀ m ∈ ctx.MODELS, ∀ e : String,
        m.2 (dropKpis (encodedInput ctx input)) = Except.error e →
        (dictMerge input (predictionsOf ctx input)).lookup m.1 = some none) ∧
    (∀ k : String, k ∉ ctx.MODELS.map Prod.fst → k ∉ cols input →
        (dictMerge input (predictionsOf ctx input)).lookup k = none) := by
  refine ⟨?_, ?_, ?_, ?_⟩
  · simp [make_prediction, makePredictionTraced, hne]
  · intro m hm y hy
    apply dictMerge_lookup_right
    rw [predictionsOf_eq, lookup_keyed_map ctx.MODELS _ m hm hnodup, predOut, hy]
  · intro m hm e he
    apply dictMerge_lookup_right
    rw [predictionsOf_eq, lookup_keyed_map ctx.MODELS _ m hm hnodup, predOut, he]
  · intro k hk hkin
    apply dictMerge_lookup_none
    · exact hkin
    · rw [cols_predictionsOf]
      exact hk

/-- C4 witness: one raising model among two, the others succeeding. -/
theorem single_model_failure_isolation_witness :
    samplePredictCtx.MODELS.isEmpty = false ∧
    (samplePredictCtx.MODELS.map Prod.fst).Nodup ∧
    make_prediction samplePredictCtx kpiGuessInput1 =
      Except.ok (dictMerge kpiGuessInput1 (predictionsOf samplePredictCtx kpiGuessInput1)) := by
  refine ⟨rfl, by decide, ?_⟩
  exact (single_model_failure_isolation samplePredictCtx kpiGuessInput1 rfl (by decide)).1

end Alloyance
